import Mathlib

/-!
Shallow embedding of src/vs/workbench/parts/preferences/browser/settingsEditor2.ts.

The file renders a settings editor: it turns a settings model plus the live
configuration store into a list of row entries (setting rows, group titles,
nav categories), renders per-type value controls, and writes edits back to
the configuration store at the currently selected target scope.

JavaScript values relevant here are modelled as follows: a setting value is
a member of the SettingValue inductive; a possibly-undefined value is an
Option SettingValue with none standing for undefined; machine strings are
Lean Strings; the NaN result of parseInt is the SettingValue.nan
constructor.
-/

/-- A concrete setting value (string, number, NaN, or boolean).
JavaScript undefined is modelled as (none : Option SettingValue). -/
inductive SettingValue where
  | str (s : String)
  | num (n : Int)
  | nan
  | boolean (b : Bool)
deriving DecidableEq

/-- ConfigurationTarget (external enum from vs/platform/configuration); the
editor's target widget offers the user and workspace targets, and
settingToEntry maps any non-USER target to the workspace selector. -/
inductive ConfigurationTarget where
  | USER
  | WORKSPACE
deriving DecidableEq

/-- The target selector string computed in settingToEntry (line 330):
target === ConfigurationTarget.USER ? 'user' : 'workspace'. -/
inductive TargetScope where
  | user
  | workspace
deriving DecidableEq

/-- Result of IConfigurationService.inspect(key): the value resolved at each
scope, each possibly undefined. -/
structure InspectResult where
  default : Option SettingValue
  user : Option SettingValue
  workspace : Option SettingValue
deriving DecidableEq

/-- The type field of an ISetting: undefined, a single type name, or an
array of type names. -/
inductive SettingTypeField where
  | noType
  | single (t : String)
  | multiple (ts : List String)
deriving DecidableEq

/-- ISetting from the preferences service: key, description lines, declared
type, optional enum values. -/
structure ISetting where
  key : String
  description : List String
  type : SettingTypeField
  enum : Option (List String)
deriving DecidableEq

/-- ISettingItemEntry (lines 48-56): the view-model row for one setting. -/
structure ISettingItemEntry where
  id : String
  key : String
  value : Option SettingValue
  isConfigured : Bool
  overriddenScopeList : List String
  description : String
  enum : Option (List String)
  type : SettingTypeField
  templateId : String
deriving DecidableEq

/-- INavListEntry (lines 58-61). -/
structure INavListEntry where
  id : String
  index : Nat
  title : String
  templateId : String
deriving DecidableEq

/-- IGroupTitleEntry (lines 63-65). -/
structure IGroupTitleEntry where
  id : String
  templateId : String
  title : String
deriving DecidableEq

/-- A section of a settings group (external ISettingsGroup model). -/
structure ISettingsSection where
  settings : List ISetting
deriving DecidableEq

/-- A settings group of the DefaultSettingsEditorModel. -/
structure ISettingsGroup where
  id : String
  title : String
  sections : List ISettingsSection
deriving DecidableEq

def SETTINGS_ENTRY_TEMPLATE_ID : String := "settings.entry.template"
def SETTINGS_NAV_TEMPLATE_ID : String := "settings.nav.template"
def SETTINGS_GROUP_ENTRY_TEMPLATE_ID : String := "settings.group.template"

/-- Line 330: targetSelector is 'user' exactly for the USER target,
'workspace' for every other target. -/
def targetSelector (t : ConfigurationTarget) : TargetScope :=
  if t = ConfigurationTarget.USER then TargetScope.user else TargetScope.workspace

/-- The indexing inspected[targetSelector] (lines 332-333). -/
def inspectedAt (r : InspectResult) (sel : TargetScope) : Option SettingValue :=
  match sel with
  | TargetScope.user => r.user
  | TargetScope.workspace => r.workspace

/-- SettingsEditor2.settingToEntry (lines 329-354), with the configuration
service's inspect passed explicitly. -/
def settingToEntry (inspect : String → InspectResult) (target : ConfigurationTarget)
    (s : ISetting) : ISettingItemEntry :=
  let sel := targetSelector target
  let inspected := inspect s.key
  let isConfigured := (inspectedAt inspected sel).isSome
  let displayValue := if isConfigured then inspectedAt inspected sel else inspected.default
  let overriddenScopeList :=
    (if sel = TargetScope.user ∧ inspected.workspace.isSome then ["Workspace"] else []) ++
    (if sel = TargetScope.workspace ∧ inspected.user.isSome then ["User"] else [])
  { id := s.key
    key := s.key
    value := displayValue
    isConfigured := isConfigured
    overriddenScopeList := overriddenScopeList
    description := String.intercalate "\n" s.description
    enum := s.enum
    type := s.type
    templateId := SETTINGS_ENTRY_TEMPLATE_ID }

/-- One element of the heterogeneous settings-list entry array built by
renderEntries (line 292). -/
inductive RenderedListEntry where
  | settingRow (e : ISettingItemEntry)
  | groupTitle (e : IGroupTitleEntry)
deriving DecidableEq

/-- The per-group inner loops of renderEntries (lines 296-304): every
setting of every section becomes an entry, kept when the filter condition
!showConfiguredOnly || (showConfiguredOnly && entry.isConfigured) holds. -/
def groupRows (inspect : String → InspectResult) (target : ConfigurationTarget)
    (showConfiguredOnly : Bool) (g : ISettingsGroup) : List ISettingItemEntry :=
  (((g.sections.map (fun sec => sec.settings)).flatten).map (settingToEntry inspect target)).filter
    (fun entry => !showConfiguredOnly || (showConfiguredOnly && entry.isConfigured))

/-- The group loop of renderEntries (lines 294-322), carrying the running
group index (the for..in loop variable, parsed with parseInt at line 309). -/
def renderEntriesAux (inspect : String → InspectResult) (target : ConfigurationTarget)
    (showConfiguredOnly : Bool) :
    Nat → List ISettingsGroup → List RenderedListEntry × List INavListEntry
  | _, [] => ([], [])
  | groupIdx, g :: rest =>
    let rows := groupRows inspect target showConfiguredOnly g
    let tail := renderEntriesAux inspect target showConfiguredOnly (groupIdx + 1) rest
    if rows.length ≠ 0 then
      (RenderedListEntry.groupTitle ⟨g.id, SETTINGS_GROUP_ENTRY_TEMPLATE_ID, g.title⟩ ::
          (rows.map RenderedListEntry.settingRow ++ tail.1),
        ⟨g.id, groupIdx, g.title, SETTINGS_NAV_TEMPLATE_ID⟩ :: tail.2)
    else tail

/-- SettingsEditor2.renderEntries (lines 289-327): the settings-list entries
and nav-list entries spliced into the two list widgets. -/
def renderEntries (inspect : String → InspectResult) (target : ConfigurationTarget)
    (showConfiguredOnly : Bool) (model : List ISettingsGroup) :
    List RenderedListEntry × List INavListEntry :=
  renderEntriesAux inspect target showConfiguredOnly 0 model

def isGroupTitleEntry : RenderedListEntry → Bool
  | RenderedListEntry.groupTitle _ => true
  | RenderedListEntry.settingRow _ => false

/-- The JavaScript filter callback with its mutable cumulativeSize closure
(line 386): cumulativeSize += filterText.length is evaluated for every
element, kept while the running total stays within 8192. -/
def telemetryFilterGo : Nat → List String → List String
  | _, [] => []
  | cumulativeSize, s :: rest =>
    if cumulativeSize + s.length ≤ 8192 then
      s :: telemetryFilterGo (cumulativeSize + s.length) rest
    else telemetryFilterGo (cumulativeSize + s.length) rest

/-- SettingsEditor2.getLatestEmptyFiltersForTelemetry (lines 384-387). -/
def getLatestEmptyFiltersForTelemetry (latestEmptyFilters : List String) : List String :=
  telemetryFilterGo 0 latestEmptyFilters

/-- SettingsEditor2.reportFilteringUsed (lines 363-378): when the filter is
truthy (nonempty) it logs the filter together with the capped empty-filter
list and clears the buffer; returns the telemetry payload (if any) and the
new latestEmptyFilters buffer. -/
def reportFilteringUsed (filter : String) (latestEmptyFilters : List String) :
    Option (String × List String) × List String :=
  if filter = "" then (none, latestEmptyFilters)
  else (some (filter, getLatestEmptyFiltersForTelemetry latestEmptyFilters), [])

/-- Sum of the lengths of a list of strings. -/
def sumLens (l : List String) : Nat := (l.map String.length).sum

/-- SettingItemDelegate.getHeight (lines 401-417). The settings-entry
branch measures an off-screen DOM render; that measurement is the
measuredSettingHeight parameter. -/
def SettingItemDelegate_getHeight (measuredSettingHeight : Nat) (templateId : String) : Nat :=
  if templateId = SETTINGS_GROUP_ENTRY_TEMPLATE_ID then 60
  else if templateId = SETTINGS_ENTRY_TEMPLATE_ID then measuredSettingHeight
  else 0

/-- NavItemDelegate.getHeight (lines 426-432). -/
def NavItemDelegate_getHeight (templateId : String) : Nat :=
  if templateId = SETTINGS_NAV_TEMPLATE_ID then 25 else 0

/-- ISettingChangeEvent (lines 463-466); value undefined (none) means
"reset / unconfigure". -/
structure ISettingChangeEvent where
  key : String
  value : Option SettingValue
deriving DecidableEq

/-- Modelled from the spec: the user-visible error display performed inside
IConfigurationService.updateValue (vs/platform/configuration, not under
src/). The source comment at line 271 ("ConfigurationService displays the
error") and the spec agree that a failed updateValue surfaces a single
user-visible notification including the underlying error message. -/
def configurationServiceNotifications (updateResult : Except String Unit) : List String :=
  match updateResult with
  | Except.ok _ => []
  | Except.error e => [e]

/-- The observable outcome of SettingsEditor2.onDidChangeSetting
(lines 267-273): which updateValue calls it issues, which notifications the
local handler raises, which notifications the configuration service raises,
and whether the rejection escapes. -/
structure EditOutcome where
  updateCalls : List (String × Option SettingValue × ConfigurationTarget)
  localNotifications : List String
  serviceNotifications : List String
  errorPropagated : Bool
deriving DecidableEq

/-- SettingsEditor2.onDidChangeSetting (lines 267-273): it calls
updateValue(key, value, target) and attaches .then(null, handler) whose
handler body is empty (lines 270-272): the rejection is consumed, the local
handler raises nothing, and the error display happens inside the
configuration service (modelled by configurationServiceNotifications). -/
def onDidChangeSetting (target : ConfigurationTarget) (key : String)
    (value : Option SettingValue) (updateResult : Except String Unit) : EditOutcome :=
  { updateCalls := [(key, value, target)]
    localNotifications := []
    serviceNotifications := configurationServiceNotifications updateResult
    errorPropagated :=
      match updateResult with
      | Except.ok _ => false
      | Except.error _ => false }

def isWsChar (c : Char) : Bool := c = ' ' || c = '\t' || c = '\n' || c = '\r'

def isDigit10 (c : Char) : Bool := '0' ≤ c && c ≤ '9'

def isHexDigit (c : Char) : Bool :=
  isDigit10 c || ('a' ≤ c && c ≤ 'f') || ('A' ≤ c && c ≤ 'F')

def hexVal (c : Char) : Nat :=
  if isDigit10 c then c.toNat - 48
  else if 'a' ≤ c && c ≤ 'f' then c.toNat - 87
  else c.toNat - 55

def natFromDigits (base : Nat) (ds : List Char) : Nat :=
  ds.foldl (fun acc c => acc * base + hexVal c) 0

def skipWs : List Char → List Char
  | [] => []
  | c :: rest => if isWsChar c then skipWs rest else c :: rest

def parseSign (l : List Char) : Int × List Char :=
  match l with
  | [] => (1, [])
  | c :: rest => if c = '-' then (-1, rest) else if c = '+' then (1, rest) else (1, l)

/-- The longest leading run of digits of the given class; NaN (none) when
there is no leading digit. -/
def parseDigitsWith (p : Char → Bool) (base : Nat) (sign : Int) (l : List Char) : Option Int :=
  match l with
  | [] => none
  | c :: _ => if p c then some (sign * (natFromDigits base (l.takeWhile p) : Nat)) else none

/-- The radix dispatch of parseInt after whitespace and sign: a 0x or 0X
prefix selects hexadecimal, anything else decimal. -/
def jsParseIntCore (sign : Int) : List Char → Option Int
  | c0 :: c1 :: rest =>
    if c0 = '0' && (c1 = 'x' || c1 = 'X') then parseDigitsWith isHexDigit 16 sign rest
    else parseDigitsWith isDigit10 10 sign (c0 :: c1 :: rest)
  | l => parseDigitsWith isDigit10 10 sign l

/-- The JavaScript builtin parseInt(string) with no radix argument, as used
at line 545: skip whitespace, read an optional sign, honour a 0x/0X prefix,
parse the longest digit run; NaN (none) when no digit is found. -/
def jsParseInt (s : String) : Option Int :=
  let sp := parseSign (skipWs s.data)
  jsParseIntCore sp.1 sp.2

/-- parseInt's result as a setting value: a number, or the NaN sentinel. -/
def parseIntValue (s : String) : SettingValue :=
  match jsParseInt s with
  | some n => SettingValue.num n
  | none => SettingValue.nan

/-- Whether the remainder after whitespace and sign starts with a parseable
integer: a decimal digit, or a hex prefix followed by a hex digit. -/
def startsWithIntAfterSign : List Char → Bool
  | c0 :: c1 :: rest =>
    if c0 = '0' && (c1 = 'x' || c1 = 'X') then
      match rest with
      | c2 :: _ => isHexDigit c2
      | [] => false
    else isDigit10 c0
  | c0 :: [] => isDigit10 c0
  | [] => false

/-- The input string starts (after optional whitespace and sign) with a
parseable integer. -/
def startsWithParseableInt (s : String) : Bool :=
  startsWithIntAfterSign (parseSign (skipWs s.data)).2

/-- The JavaScript Array.prototype.indexOf search: index of the first
occurrence, if any. -/
def findIdxFrom (s : String) : List String → Option Nat
  | [] => none
  | a :: t => if a = s then some 0 else (findIdxFrom s t).map (· + 1)

/-- Array.prototype.indexOf: first index of the element, -1 when absent. -/
def jsIndexOf (es : List String) (s : String) : Int :=
  match findIdxFrom s es with
  | some i => (i : Int)
  | none => -1

/-- entry.enum.indexOf(entry.value) (line 564): strict equality of a string
array element with the entry value succeeds only for a string value. -/
def enumIndexOf (es : List String) (v : Option SettingValue) : Int :=
  match v with
  | some (SettingValue.str s) => jsIndexOf es s
  | _ => -1

/-- The value control built by SettingItemRenderer.renderValue for one
entry; each interaction handler returns the list of setting-change events
fired by that interaction (one per onChange call, line 536). -/
inductive RenderedControl where
  | selectControl (options : List String) (initialIndex : Int)
      (onSelect : Nat → List ISettingChangeEvent)
  | checkboxControl (initial : Option SettingValue)
      (onToggle : Bool → List ISettingChangeEvent)
  | inputControl (initial : Option SettingValue)
      (onEdit : String → List ISettingChangeEvent)
  | jsonPlaceholder (text : String)

/-- SettingItemRenderer.renderValue (lines 535-549) together with the
control builders renderEnum (lines 563-572), renderBool (551-561) and
renderText (574-583). The select handler fires entry.enum[e.index]
(line 571), undefined when out of range; the number branch wires
renderText through parseInt (line 545). -/
def renderValue (entry : ISettingItemEntry) : RenderedControl :=
  if entry.type = SettingTypeField.single "string" ∧ entry.enum.isSome then
    let es := entry.enum.getD []
    RenderedControl.selectControl es (enumIndexOf es entry.value)
      (fun i => [⟨entry.key, (es.get? i).map SettingValue.str⟩])
  else if entry.type = SettingTypeField.single "boolean" then
    RenderedControl.checkboxControl entry.value
      (fun b => [⟨entry.key, some (SettingValue.boolean b)⟩])
  else if entry.type = SettingTypeField.single "string" then
    RenderedControl.inputControl entry.value
      (fun s => [⟨entry.key, some (SettingValue.str s)⟩])
  else if entry.type = SettingTypeField.single "number" then
    RenderedControl.inputControl entry.value
      (fun s => [⟨entry.key, some (parseIntValue s)⟩])
  else RenderedControl.jsonPlaceholder "Edit in settings.json!"

/-- The regex class [a-z]: code points 97 to 122. -/
def isLowerAscii (c : Char) : Bool := 97 ≤ c.toNat && c.toNat ≤ 122

/-- The regex class [A-Z]: code points 65 to 90. -/
def isUpperAscii (c : Char) : Bool := 65 ≤ c.toNat && c.toNat ≤ 90

/-- The toUpperCase applied by the regex callbacks: ASCII lowercase letters
map 32 code points down; the regexes only ever match [a-z]. -/
def upperAscii (c : Char) : Char :=
  if isLowerAscii c then Char.ofNat (c.toNat - 32) else c

/-- Index of the last dot, the key.lastIndexOf call of line 645. -/
def lastDotIdxAux : List Char → Option Nat
  | [] => none
  | c :: rest =>
    match lastDotIdxAux rest with
    | some i => some (i + 1)
    | none => if c = '.' then some 0 else none

/-- Lines 645-648: the last dot, when present, is replaced by a colon and a
space via the two substr calls. -/
def replaceLastDot (l : List Char) : List Char :=
  match lastDotIdxAux l with
  | some i => l.take i ++ [':', ' '] ++ l.drop (i + 1)
  | none => l

/-- The non-global regex replace of line 651: the first dot followed by a
lowercase letter has that letter uppercased; scanning advances one position
past a dot that is not followed by a lowercase letter. -/
def upperAfterDot : List Char → List Char
  | [] => []
  | [c] => [c]
  | a :: b :: rest =>
    if a = '.' then
      if isLowerAscii b then a :: upperAscii b :: rest
      else a :: upperAfterDot (b :: rest)
    else a :: upperAfterDot (b :: rest)

/-- The global regex replace of line 652 with regex scanning semantics:
a matched lowercase-uppercase pair is consumed and scanning resumes after
it. -/
def camelSplit : List Char → List Char
  | a :: b :: rest =>
    if isLowerAscii a && isUpperAscii b then a :: ' ' :: b :: camelSplit rest
    else a :: camelSplit (b :: rest)
  | l => l

/-- The anchored regex replace of line 653: a lowercase first character is
uppercased. -/
def upperFirstLower : List Char → List Char
  | [] => []
  | c :: rest => if isLowerAscii c then upperAscii c :: rest else c :: rest

/-- The global regex replace of line 654 with regex scanning semantics: a
matched space-lowercase pair is consumed, the letter uppercased, and
scanning resumes after the pair. -/
def upperAfterSpace : List Char → List Char
  | [] => []
  | [c] => [c]
  | a :: b :: rest =>
    if a = ' ' then
      if isLowerAscii b then a :: upperAscii b :: upperAfterSpace rest
      else a :: upperAfterSpace (b :: rest)
    else a :: upperAfterSpace (b :: rest)

/-- settingKeyToLabel (lines 644-655). -/
def settingKeyToLabel (key : String) : String :=
  String.mk (upperAfterSpace (upperFirstLower (camelSplit (upperAfterDot (replaceLastDot key.data)))))

/-- Spec-side word splitting: a space is inserted at every
lowercase-to-uppercase letter boundary (no consumption). -/
def insertCamelSpaces : List Char → List Char
  | a :: b :: rest =>
    if isLowerAscii a && isUpperAscii b then a :: ' ' :: insertCamelSpaces (b :: rest)
    else a :: insertCamelSpaces (b :: rest)
  | l => l

/-- Spec-side capitalization helper: uppercase each character whose
predecessor in the original list is a space (uppercasing never creates or
removes a space, so tracking the original predecessor is equivalent to
tracking the transformed one). -/
def capWithPrev (prev : Char) : List Char → List Char
  | [] => []
  | b :: rest => (if prev = ' ' then upperAscii b else b) :: capWithPrev b rest

/-- Spec-side capitalization: every letter that follows a space is
uppercased; the first character is never affected. -/
def capAfterSpace (l : List Char) : List Char :=
  match l with
  | [] => []
  | c :: rest => c :: capWithPrev c rest

/-- The claim's description of settingKeyToLabel: last dot to colon-space,
word splitting at lowercase-uppercase boundaries, first letter and letters
after spaces uppercased. -/
def specKeyToLabel (key : String) : String :=
  String.mk (capAfterSpace (upperFirstLower (insertCamelSpaces (replaceLastDot key.data))))

/-- The amended description: like specKeyToLabel, but after the last-dot
replacement the first remaining dot followed by a lowercase letter has that
letter uppercased (this only affects keys with two or more dots). -/
def specKeyToLabelAmended (key : String) : String :=
  String.mk (capAfterSpace (upperFirstLower (insertCamelSpaces (upperAfterDot (replaceLastDot key.data)))))

/-- The observable result of SettingItemRenderer.renderElement
(lines 511-533) on one entry: the bound texts, the configured state class,
the value control, the events fired by one activation of the reset button
(lines 521-528, firing value undefined), and the overrides text. -/
structure RenderedSettingRow where
  keyText : String
  labelText : String
  descriptionText : String
  configuredClass : Bool
  control : RenderedControl
  resetEvents : List ISettingChangeEvent
  overridesText : String

/-- SettingItemRenderer.renderElement (lines 511-533). -/
def renderElement (entry : ISettingItemEntry) : RenderedSettingRow :=
  { keyText := entry.key
    labelText := settingKeyToLabel entry.key
    descriptionText := entry.description
    configuredClass := entry.isConfigured
    control := renderValue entry
    resetEvents := [⟨entry.key, none⟩]
    overridesText :=
      if entry.overriddenScopeList.length ≠ 0 then
        "Also configured in: " ++ String.intercalate ", " entry.overriddenScopeList
      else "" }

/-! Concrete fixtures used by the witness theorems. -/

def sampleInspect : String → InspectResult :=
  fun _ => { default := some (SettingValue.num 14), user := none, workspace := some (SettingValue.num 18) }

def sampleNumberSetting : ISetting :=
  { key := "editor.fontSize", description := ["Controls the font size."],
    type := SettingTypeField.single "number", enum := none }

def sampleModel : List ISettingsGroup :=
  [ { id := "editorGroup", title := "Editor", sections := [{ settings := [sampleNumberSetting] }] },
    { id := "emptyGroup", title := "Empty", sections := [{ settings := [] }] } ]

def sampleEnumEntry : ISettingItemEntry :=
  { id := "files.autoSave", key := "files.autoSave", value := some (SettingValue.str "off"),
    isConfigured := false, overriddenScopeList := [], description := "",
    enum := some ["off", "on"], type := SettingTypeField.single "string",
    templateId := SETTINGS_ENTRY_TEMPLATE_ID }

def sampleNumberEntry : ISettingItemEntry :=
  { id := "editor.fontSize", key := "editor.fontSize", value := some (SettingValue.num 14),
    isConfigured := false, overriddenScopeList := [], description := "",
    enum := none, type := SettingTypeField.single "number",
    templateId := SETTINGS_ENTRY_TEMPLATE_ID }

/-! Helper lemmas about the telemetry cap. -/

/-- The spec-side description of the cap: keep strings while the running
total stays within 8192, stop for good at the first string that would cross
the cap. -/
def specCappedList : Nat → List String → List String
  | _, [] => []
  | cum, s :: rest =>
    if cum + s.length ≤ 8192 then s :: specCappedList (cum + s.length) rest else []

theorem sumLens_nil : sumLens [] = 0 := rfl

theorem sumLens_cons (s : String) (t : List String) : sumLens (s :: t) = s.length + sumLens t := by
  simp [sumLens]

theorem telemetryFilterGo_of_gt (l : List String) :
    ∀ cum, 8192 < cum → telemetryFilterGo cum l = [] := by
  induction l with
  | nil => intro cum _; rfl
  | cons s rest ih =>
    intro cum h
    have hgt : ¬ (cum + s.length ≤ 8192) := by omega
    simp only [telemetryFilterGo, if_neg hgt]
    exact ih _ (by omega)

theorem telemetryFilterGo_eq_spec (l : List String) :
    ∀ cum, telemetryFilterGo cum l = specCappedList cum l := by
  induction l with
  | nil => intro cum; rfl
  | cons s rest ih =>
    intro cum
    by_cases h : cum + s.length ≤ 8192
    · simp only [telemetryFilterGo, specCappedList, if_pos h, ih]
    · simp only [telemetryFilterGo, specCappedList, if_neg h]
      exact telemetryFilterGo_of_gt rest _ (by omega)

theorem specCappedList_sum (l : List String) :
    ∀ cum, cum ≤ 8192 → cum + sumLens (specCappedList cum l) ≤ 8192 := by
  induction l with
  | nil => intro cum h; simpa [sumLens_nil] using h
  | cons s rest ih =>
    intro cum h
    by_cases hc : cum + s.length ≤ 8192
    · simp only [specCappedList, if_pos hc, sumLens_cons]
      have := ih (cum + s.length) hc
      omega
    · simp only [specCappedList, if_neg hc, sumLens_nil]
      omega

theorem specCappedList_take (l : List String) :
    ∀ cum, ∃ k, specCappedList cum l = l.take k := by
  induction l with
  | nil => intro cum; exact ⟨0, rfl⟩
  | cons s rest ih =>
    intro cum
    by_cases hc : cum + s.length ≤ 8192
    · obtain ⟨k, hk⟩ := ih (cum + s.length)
      exact ⟨k + 1, by simp only [specCappedList, if_pos hc, hk, List.take_succ_cons]⟩
    · exact ⟨0, by simp only [specCappedList, if_neg hc, List.take_zero]⟩

/-- Claim C3: the telemetry empty-filter list is capped: the sum of the
lengths of the returned strings never exceeds 8192, the first string whose
inclusion would cross the cap is excluded and so is every string after it
(the result is a prefix of the buffer, cut at the first crossing), and
reportFilteringUsed logs exactly this capped list when the filter is
nonempty. -/
theorem claim_C3_telemetry_cap (latestEmptyFilters : List String) (filter : String) :
    sumLens (getLatestEmptyFiltersForTelemetry latestEmptyFilters) ≤ 8192
    ∧ getLatestEmptyFiltersForTelemetry latestEmptyFilters = specCappedList 0 latestEmptyFilters
    ∧ (∃ k, getLatestEmptyFiltersForTelemetry latestEmptyFilters = latestEmptyFilters.take k)
    ∧ (reportFilteringUsed filter latestEmptyFilters).1 =
        (if filter = "" then none
         else some (filter, getLatestEmptyFiltersForTelemetry latestEmptyFilters)) := by
  have heq : getLatestEmptyFiltersForTelemetry latestEmptyFilters
      = specCappedList 0 latestEmptyFilters :=
    telemetryFilterGo_eq_spec latestEmptyFilters 0
  refine ⟨?_, heq, ?_, ?_⟩
  · rw [heq]
    have := specCappedList_sum latestEmptyFilters 0 (by omega)
    omega
  · rw [heq]; exact specCappedList_take latestEmptyFilters 0
  · by_cases h : filter = "" <;> simp [reportFilteringUsed, h]

/-- Claim C3 witness: the capped list at a concrete buffer. -/
theorem claim_C3_witness :
    sumLens (getLatestEmptyFiltersForTelemetry ["ab", "cd"]) ≤ 8192
    ∧ getLatestEmptyFiltersForTelemetry ["ab", "cd"] = specCappedList 0 ["ab", "cd"]
    ∧ (∃ k, getLatestEmptyFiltersForTelemetry ["ab", "cd"] = (["ab", "cd"] : List String).take k)
    ∧ (reportFilteringUsed "font" ["ab", "cd"]).1 =
        (if ("font" : String) = "" then none
         else some (("font" : String), getLatestEmptyFiltersForTelemetry ["ab", "cd"])) :=
  claim_C3_telemetry_cap ["ab", "cd"] "font"

/-- Claim C1: the entry's display value is the inspected value at the
selected target scope when defined, the inspected default otherwise, and
isConfigured holds exactly when the value at the selected scope is
defined. -/
theorem claim_C1_display_value (inspect : String → InspectResult)
    (target : ConfigurationTarget) (s : ISetting) :
    (settingToEntry inspect target s).value =
      (if (inspectedAt (inspect s.key) (targetSelector target)).isSome
       then inspectedAt (inspect s.key) (targetSelector target)
       else (inspect s.key).default)
    ∧ ((settingToEntry inspect target s).isConfigured = true ↔
        (inspectedAt (inspect s.key) (targetSelector target)).isSome = true)
    ∧ (∀ v, inspectedAt (inspect s.key) (targetSelector target) = some v →
        (settingToEntry inspect target s).value = some v
        ∧ (settingToEntry inspect target s).isConfigured = true)
    ∧ (inspectedAt (inspect s.key) (targetSelector target) = none →
        (settingToEntry inspect target s).value = (inspect s.key).default
        ∧ (settingToEntry inspect target s).isConfigured = false) := by
  refine ⟨rfl, Iff.rfl, ?_, ?_⟩
  · intro v hv
    constructor <;> simp [settingToEntry, hv]
  · intro hnone
    constructor <;> simp [settingToEntry, hnone]

/-- Claim C1 witness: a setting configured at the workspace scope but not
the user scope displays the default (unconfigured) under the user target
and the workspace value (configured) under the workspace target. -/
theorem claim_C1_witness :
    (settingToEntry sampleInspect ConfigurationTarget.USER sampleNumberSetting).value
        = some (SettingValue.num 14)
    ∧ (settingToEntry sampleInspect ConfigurationTarget.USER sampleNumberSetting).isConfigured = false
    ∧ (settingToEntry sampleInspect ConfigurationTarget.WORKSPACE sampleNumberSetting).value
        = some (SettingValue.num 18)
    ∧ (settingToEntry sampleInspect ConfigurationTarget.WORKSPACE sampleNumberSetting).isConfigured = true := by
  have hu := claim_C1_display_value sampleInspect ConfigurationTarget.USER sampleNumberSetting
  have hw := claim_C1_display_value sampleInspect ConfigurationTarget.WORKSPACE sampleNumberSetting
  refine ⟨hu.1.trans (by decide), ?_, hw.1.trans (by decide), ?_⟩
  · exact (hu.2.2.2 (by decide)).2
  · exact (hw.2.2.1 (SettingValue.num 18) (by decide)).2

/-- Claim C4: a failed updateValue is caught locally (the rejection does
not propagate, the local handler raising nothing itself), surfaces as a
single user-visible notification containing the underlying error message
(raised inside the configuration service, modelled from the spec), and
subsequent edits still issue their updateValue calls. -/
theorem claim_C4_write_failure (target : ConfigurationTarget) (key : String)
    (value : Option SettingValue) (e : String) :
    (onDidChangeSetting target key value (Except.error e)).errorPropagated = false
    ∧ (onDidChangeSetting target key value (Except.error e)).localNotifications = []
    ∧ (onDidChangeSetting target key value (Except.error e)).serviceNotifications = [e]
    ∧ (onDidChangeSetting target key value (Except.error e)).serviceNotifications.length = 1
    ∧ e ∈ (onDidChangeSetting target key value (Except.error e)).serviceNotifications
    ∧ (onDidChangeSetting target key value (Except.error e)).updateCalls = [(key, value, target)]
    ∧ ∀ key2 value2 result2,
        (onDidChangeSetting target key2 value2 result2).updateCalls = [(key2, value2, target)] :=
  ⟨rfl, rfl, rfl, rfl, List.mem_singleton.mpr rfl, rfl, fun _ _ _ => rfl⟩

/-- Claim C4 witness: a concrete failing write. -/
theorem claim_C4_witness :
    (onDidChangeSetting ConfigurationTarget.WORKSPACE "editor.tabSize"
        (some (SettingValue.num 2)) (Except.error "disk full")).errorPropagated = false
    ∧ (onDidChangeSetting ConfigurationTarget.WORKSPACE "editor.tabSize"
        (some (SettingValue.num 2)) (Except.error "disk full")).serviceNotifications = ["disk full"]
    ∧ (onDidChangeSetting ConfigurationTarget.WORKSPACE "editor.tabSize"
        (some (SettingValue.num 2)) (Except.error "disk full")).updateCalls
        = [("editor.tabSize", some (SettingValue.num 2), ConfigurationTarget.WORKSPACE)] := by
  have h := claim_C4_write_failure ConfigurationTarget.WORKSPACE "editor.tabSize"
    (some (SettingValue.num 2)) "disk full"
  exact ⟨h.1, h.2.2.1, h.2.2.2.2.2.1⟩

/-- Claim C7: the delegates return the fixed heights 60 for a group title
and 25 for a nav category, and 0 for a template tag that is none of the
known identifiers. -/
theorem claim_C7_fixed_heights (measuredSettingHeight : Nat) (templateId : String)
    (h1 : templateId ≠ SETTINGS_ENTRY_TEMPLATE_ID)
    (h2 : templateId ≠ SETTINGS_NAV_TEMPLATE_ID)
    (h3 : templateId ≠ SETTINGS_GROUP_ENTRY_TEMPLATE_ID) :
    SettingItemDelegate_getHeight measuredSettingHeight SETTINGS_GROUP_ENTRY_TEMPLATE_ID = 60
    ∧ NavItemDelegate_getHeight SETTINGS_NAV_TEMPLATE_ID = 25
    ∧ SettingItemDelegate_getHeight measuredSettingHeight templateId = 0
    ∧ NavItemDelegate_getHeight templateId = 0 := by
  refine ⟨?_, ?_, ?_, ?_⟩
  · simp [SettingItemDelegate_getHeight]
  · simp [NavItemDelegate_getHeight]
  · simp [SettingItemDelegate_getHeight, h1, h3]
  · simp [NavItemDelegate_getHeight, h2]

/-- Claim C7 witness: an unknown template tag. -/
theorem claim_C7_witness :
    SettingItemDelegate_getHeight 0 SETTINGS_GROUP_ENTRY_TEMPLATE_ID = 60
    ∧ NavItemDelegate_getHeight SETTINGS_NAV_TEMPLATE_ID = 25
    ∧ SettingItemDelegate_getHeight 0 "unknown.template" = 0
    ∧ NavItemDelegate_getHeight "unknown.template" = 0 :=
  claim_C7_fixed_heights 0 "unknown.template" (by decide) (by decide) (by decide)

/-- Claim C8: one activation of the reset affordance fires exactly one
change event with the entry's key and the undefined (unset) sentinel, a
value distinct from every concrete setting value, and the edit callback
writes that sentinel at the current target scope. -/
theorem claim_C8_reset_unset (entry : ISettingItemEntry) (target : ConfigurationTarget)
    (updateResult : Except String Unit) :
    (renderElement entry).resetEvents = [⟨entry.key, none⟩]
    ∧ (renderElement entry).resetEvents.length = 1
    ∧ (∀ v : SettingValue, ((⟨entry.key, none⟩ : ISettingChangeEvent)).value ≠ some v)
    ∧ (onDidChangeSetting target entry.key none updateResult).updateCalls
        = [(entry.key, none, target)] :=
  ⟨rfl, rfl, fun _ h => Option.noConfusion h, rfl⟩

/-- Claim C8 witness: the reset flow at a concrete entry. -/
theorem claim_C8_witness :
    (renderElement sampleNumberEntry).resetEvents = [⟨"editor.fontSize", none⟩]
    ∧ (onDidChangeSetting ConfigurationTarget.USER sampleNumberEntry.key none
        (Except.ok ())).updateCalls = [("editor.fontSize", none, ConfigurationTarget.USER)] := by
  have h := claim_C8_reset_unset sampleNumberEntry ConfigurationTarget.USER (Except.ok ())
  exact ⟨h.1, h.2.2.2⟩

/-- Claim C9: the overridden-scope list holds at most one element, never
names the selected scope, is exactly ["Workspace"] when the user target is
selected and a workspace value is defined, exactly ["User"] when the
workspace target is selected and a user value is defined, and is empty
otherwise. -/
theorem claim_C9_overridden_scopes (inspect : String → InspectResult)
    (target : ConfigurationTarget) (s : ISetting) :
    (settingToEntry inspect target s).overriddenScopeList.length ≤ 1
    ∧ (if target = ConfigurationTarget.USER then "User" else "Workspace")
        ∉ (settingToEntry inspect target s).overriddenScopeList
    ∧ ((settingToEntry inspect target s).overriddenScopeList = ["Workspace"]
        ↔ target = ConfigurationTarget.USER ∧ (inspect s.key).workspace.isSome = true)
    ∧ ((settingToEntry inspect target s).overriddenScopeList = ["User"]
        ↔ target = ConfigurationTarget.WORKSPACE ∧ (inspect s.key).user.isSome = true)
    ∧ ((settingToEntry inspect target s).overriddenScopeList = []
        ↔ ¬(target = ConfigurationTarget.USER ∧ (inspect s.key).workspace.isSome = true)
          ∧ ¬(target = ConfigurationTarget.WORKSPACE ∧ (inspect s.key).user.isSome = true)) := by
  cases target <;>
    cases hw : (inspect s.key).workspace <;>
      cases hu : (inspect s.key).user <;>
        simp [settingToEntry, targetSelector, hw, hu]

/-- Claim C9 witness: concrete overridden-scope lists for both targets. -/
theorem claim_C9_witness :
    (settingToEntry sampleInspect ConfigurationTarget.USER sampleNumberSetting).overriddenScopeList
        = ["Workspace"]
    ∧ (settingToEntry sampleInspect ConfigurationTarget.WORKSPACE sampleNumberSetting).overriddenScopeList
        = [] := by
  have h1 := claim_C9_overridden_scopes sampleInspect ConfigurationTarget.USER sampleNumberSetting
  have h2 := claim_C9_overridden_scopes sampleInspect ConfigurationTarget.WORKSPACE sampleNumberSetting
  exact ⟨h1.2.2.1.mpr (by decide), h2.2.2.2.2.mpr (by decide)⟩

/-! Helper lemmas for the configured-only filter (claim C2). -/

theorem groupRows_configured (inspect : String → InspectResult) (target : ConfigurationTarget)
    (g : ISettingsGroup) :
    ∀ e ∈ groupRows inspect target true g, e.isConfigured = true := by
  intro e he
  have h := List.mem_filter.mp he
  simpa using h.2

theorem renderEntriesAux_cons (inspect : String → InspectResult) (target : ConfigurationTarget)
    (showConfiguredOnly : Bool) (groupIdx : Nat) (g : ISettingsGroup)
    (rest : List ISettingsGroup) :
    renderEntriesAux inspect target showConfiguredOnly groupIdx (g :: rest) =
      if (groupRows inspect target showConfiguredOnly g).length ≠ 0 then
        (RenderedListEntry.groupTitle ⟨g.id, SETTINGS_GROUP_ENTRY_TEMPLATE_ID, g.title⟩ ::
            ((groupRows inspect target showConfiguredOnly g).map RenderedListEntry.settingRow ++
              (renderEntriesAux inspect target showConfiguredOnly (groupIdx + 1) rest).1),
          (⟨g.id, groupIdx, g.title, SETTINGS_NAV_TEMPLATE_ID⟩ : INavListEntry) ::
            (renderEntriesAux inspect target showConfiguredOnly (groupIdx + 1) rest).2)
      else renderEntriesAux inspect target showConfiguredOnly (groupIdx + 1) rest := rfl

theorem aux_settingRow_configured (inspect : String → InspectResult)
    (target : ConfigurationTarget) :
    ∀ (model : List ISettingsGroup) (idx : Nat) (e : ISettingItemEntry),
      RenderedListEntry.settingRow e ∈ (renderEntriesAux inspect target true idx model).1 →
      e.isConfigured = true := by
  intro model
  induction model with
  | nil => intro idx e h; simp [renderEntriesAux] at h
  | cons g rest ih =>
    intro idx e h
    rw [renderEntriesAux_cons] at h
    by_cases hr : (groupRows inspect target true g).length ≠ 0
    · rw [if_pos hr] at h
      rcases List.mem_cons.mp h with hhead | htail2
      · simp at hhead
      · rcases List.mem_append.mp htail2 with hmap | htail
        · obtain ⟨r, hrmem, hre⟩ := List.mem_map.mp hmap
          have : r = e := by injection hre
          exact this ▸ groupRows_configured inspect target g r hrmem
        · exact ih (idx + 1) e htail
    · rw [if_neg hr] at h
      exact ih (idx + 1) e h

theorem filter_settingRow_map (rows : List ISettingItemEntry) :
    (rows.map RenderedListEntry.settingRow).filter isGroupTitleEntry = [] := by
  induction rows with
  | nil => rfl
  | cons r t ih => simp [isGroupTitleEntry, List.filter_cons, ih]

theorem aux_counts (inspect : String → InspectResult) (target : ConfigurationTarget) :
    ∀ (model : List ISettingsGroup) (idx : Nat),
      ((renderEntriesAux inspect target true idx model).1.filter isGroupTitleEntry).length
          = (model.filter (fun g => !(groupRows inspect target true g).isEmpty)).length
      ∧ (renderEntriesAux inspect target true idx model).2.length
          = (model.filter (fun g => !(groupRows inspect target true g).isEmpty)).length := by
  intro model
  induction model with
  | nil => intro idx; exact ⟨rfl, rfl⟩
  | cons g rest ih =>
    intro idx
    rw [renderEntriesAux_cons]
    by_cases hr : (groupRows inspect target true g).length ≠ 0
    · have hne : (!(groupRows inspect target true g).isEmpty) = true := by
        cases hgr : groupRows inspect target true g with
        | nil => exact absurd (by simp [hgr]) hr
        | cons a t => simp
      rw [if_pos hr]
      constructor
      · simp only [List.filter_cons, List.filter_append, filter_settingRow_map,
          isGroupTitleEntry, List.nil_append, List.length_cons, hne]
        simp [(ih (idx + 1)).1, hne]
      · simp [List.length_cons, (ih (idx + 1)).2, hne]
    · have hne : (!(groupRows inspect target true g).isEmpty) = false := by
        cases hgr : groupRows inspect target true g with
        | nil => simp
        | cons a t => exact absurd (by simp [hgr]) hr
      rw [if_neg hr]
      simp [(ih (idx + 1)).1, (ih (idx + 1)).2, hne]

theorem aux_title_mem (inspect : String → InspectResult) (target : ConfigurationTarget) :
    ∀ (model : List ISettingsGroup) (idx : Nat) (t : IGroupTitleEntry),
      RenderedListEntry.groupTitle t ∈ (renderEntriesAux inspect target true idx model).1 →
      ∃ g, g ∈ model ∧ t.id = g.id ∧ t.title = g.title
        ∧ (groupRows inspect target true g).length ≠ 0 := by
  intro model
  induction model with
  | nil => intro idx t h; simp [renderEntriesAux] at h
  | cons g rest ih =>
    intro idx t h
    rw [renderEntriesAux_cons] at h
    by_cases hr : (groupRows inspect target true g).length ≠ 0
    · rw [if_pos hr] at h
      rcases List.mem_cons.mp h with hhead | htail2
      · have ht : t = ⟨g.id, SETTINGS_GROUP_ENTRY_TEMPLATE_ID, g.title⟩ := by
          injection hhead
        exact ⟨g, List.mem_cons_self g rest, by rw [ht], by rw [ht], hr⟩
      · rcases List.mem_append.mp htail2 with hmap | htail
        · obtain ⟨r, _, hre⟩ := List.mem_map.mp hmap
          exact absurd hre (by simp)
        · obtain ⟨g2, hg2, h1, h2, h3⟩ := ih (idx + 1) t htail
          exact ⟨g2, List.mem_cons_of_mem g hg2, h1, h2, h3⟩
    · rw [if_neg hr] at h
      obtain ⟨g2, hg2, h1, h2, h3⟩ := ih (idx + 1) t h
      exact ⟨g2, List.mem_cons_of_mem g hg2, h1, h2, h3⟩

theorem aux_nav_mem (inspect : String → InspectResult) (target : ConfigurationTarget) :
    ∀ (model : List ISettingsGroup) (idx : Nat) (n : INavListEntry),
      n ∈ (renderEntriesAux inspect target true idx model).2 →
      ∃ g, g ∈ model ∧ n.id = g.id ∧ n.title = g.title
        ∧ (groupRows inspect target true g).length ≠ 0 := by
  intro model
  induction model with
  | nil => intro idx n h; simp [renderEntriesAux] at h
  | cons g rest ih =>
    intro idx n h
    rw [renderEntriesAux_cons] at h
    by_cases hr : (groupRows inspect target true g).length ≠ 0
    · rw [if_pos hr] at h
      rcases List.mem_cons.mp h with hhead | htail
      · exact ⟨g, List.mem_cons_self g rest, by rw [hhead], by rw [hhead], hr⟩
      · obtain ⟨g2, hg2, h1, h2, h3⟩ := ih (idx + 1) n htail
        exact ⟨g2, List.mem_cons_of_mem g hg2, h1, h2, h3⟩
    · rw [if_neg hr] at h
      obtain ⟨g2, hg2, h1, h2, h3⟩ := ih (idx + 1) n h
      exact ⟨g2, List.mem_cons_of_mem g hg2, h1, h2, h3⟩

/-- Claim C2: with the configured-only filter enabled, no rendered setting
row is unconfigured; the number of group-title entries and of nav entries
both equal the number of groups with at least one remaining row (so a
group with zero remaining rows contributes no group title and no nav
entry, and a group with remaining rows contributes exactly one of each);
and every group-title or nav entry belongs to a group with remaining
rows. -/
theorem claim_C2_configured_only (inspect : String → InspectResult)
    (target : ConfigurationTarget) (model : List ISettingsGroup) :
    (∀ e, RenderedListEntry.settingRow e ∈ (renderEntries inspect target true model).1 →
        e.isConfigured = true)
    ∧ ((renderEntries inspect target true model).1.filter isGroupTitleEntry).length
        = (model.filter (fun g => !(groupRows inspect target true g).isEmpty)).length
    ∧ (renderEntries inspect target true model).2.length
        = (model.filter (fun g => !(groupRows inspect target true g).isEmpty)).length
    ∧ (∀ t, RenderedListEntry.groupTitle t ∈ (renderEntries inspect target true model).1 →
        ∃ g, g ∈ model ∧ t.id = g.id ∧ t.title = g.title
          ∧ (groupRows inspect target true g).length ≠ 0)
    ∧ (∀ n, n ∈ (renderEntries inspect target true model).2 →
        ∃ g, g ∈ model ∧ n.id = g.id ∧ n.title = g.title
          ∧ (groupRows inspect target true g).length ≠ 0) :=
  ⟨fun e => aux_settingRow_configured inspect target model 0 e,
    (aux_counts inspect target model 0).1,
    (aux_counts inspect target model 0).2,
    fun t => aux_title_mem inspect target model 0 t,
    fun n => aux_nav_mem inspect target model 0 n⟩

/-- Claim C2 witness: with the filter on, the sample model (one group with
a workspace-configured setting, one group left empty) renders exactly one
group title and one nav entry. -/
theorem claim_C2_witness :
    ((renderEntries sampleInspect ConfigurationTarget.WORKSPACE true sampleModel).1.filter
        isGroupTitleEntry).length
      = (sampleModel.filter
          (fun g => !(groupRows sampleInspect ConfigurationTarget.WORKSPACE true g).isEmpty)).length
    ∧ (renderEntries sampleInspect ConfigurationTarget.WORKSPACE true sampleModel).2.length = 1 := by
  have h := claim_C2_configured_only sampleInspect ConfigurationTarget.WORKSPACE sampleModel
  refine ⟨h.2.1, ?_⟩
  rw [h.2.2.1]
  decide

/-! Helper lemmas for the enum select control (claim C5). -/

theorem findIdxFrom_first :
    ∀ (es : List String) (i : Nat) (s : String), es.get? i = some s →
      (∀ j, j < i → es.get? j ≠ some s) → findIdxFrom s es = some i := by
  intro es
  induction es with
  | nil => intro i s h _; simp at h
  | cons a t ih =>
    intro i s h hmin
    cases i with
    | zero =>
      have ha : a = s := by simpa using h
      simp [findIdxFrom, ha]
    | succ i =>
      have ha : ¬ a = s := by
        intro e
        exact hmin 0 (Nat.succ_pos i) (by simp [e])
      have ht : t.get? i = some s := by simpa using h
      have htmin : ∀ j, j < i → t.get? j ≠ some s := by
        intro j hj hc
        exact hmin (j + 1) (Nat.succ_lt_succ hj) (by simpa using hc)
      simp [findIdxFrom, ha, ih i s ht htmin]

theorem findIdxFrom_not_mem :
    ∀ (es : List String) (s : String), s ∉ es → findIdxFrom s es = none := by
  intro es
  induction es with
  | nil => intro s _; rfl
  | cons a t ih =>
    intro s h
    have ha : ¬ a = s := fun e => h (by simp [e])
    have ht : s ∉ t := fun m => h (List.mem_cons_of_mem a m)
    simp [findIdxFrom, ha, ih s ht]

/-- Claim C5: for a string-typed setting with an enum list, the rendered
select control's initial index is the enum index of the current value (-1
when the value is absent from the list), and selecting option i fires
exactly one change event carrying enum[i]. -/
theorem claim_C5_enum_control (entry : ISettingItemEntry) (es : List String)
    (h1 : entry.type = SettingTypeField.single "string")
    (h2 : entry.enum = some es) (_h3 : es ≠ []) :
    ∃ onSel,
      renderValue entry = RenderedControl.selectControl es (enumIndexOf es entry.value) onSel
      ∧ (∀ s i, entry.value = some (SettingValue.str s) → es.get? i = some s →
          (∀ j, j < i → es.get? j ≠ some s) → enumIndexOf es entry.value = (i : Int))
      ∧ ((∀ s, entry.value = some (SettingValue.str s) → s ∉ es) →
          enumIndexOf es entry.value = -1)
      ∧ (∀ i v, es.get? i = some v →
          onSel i = [⟨entry.key, some (SettingValue.str v)⟩] ∧ (onSel i).length = 1) := by
  refine ⟨fun i => [⟨entry.key, (es.get? i).map SettingValue.str⟩], ?_, ?_, ?_, ?_⟩
  · simp [renderValue, h1, h2]
  · intro s i hv hg hmin
    rw [hv]
    simp [enumIndexOf, jsIndexOf, findIdxFrom_first es i s hg hmin]
  · intro habs
    cases hv : entry.value with
    | none => rfl
    | some v =>
      cases v with
      | str s =>
        have := habs s hv
        simp [enumIndexOf, jsIndexOf, findIdxFrom_not_mem es s this]
      | num n => rfl
      | nan => rfl
      | boolean b => rfl
  · intro i v hg
    have hg2 : es[i]? = some v := by simpa using hg
    simp [hg2]

/-- Claim C5 witness: the sample enum entry with value off selects index 0
and selecting index 1 fires one event with value on. -/
theorem claim_C5_witness :
    enumIndexOf ["off", "on"] (some (SettingValue.str "off")) = 0
    ∧ (["off", "on"] : List String) ≠ [] := by
  have h := claim_C5_enum_control sampleEnumEntry ["off", "on"] rfl rfl (by decide)
  obtain ⟨onSel, _, hfirst, _, _⟩ := h
  constructor
  · have := hfirst "off" 0 rfl (by decide) (by intro j hj; omega)
    simpa using this
  · decide

/-! Helper lemmas for the number input control (claim C6). -/

theorem parseDigitsWith_isSome_nil (p : Char → Bool) (base : Nat) (sign : Int) :
    (parseDigitsWith p base sign []).isSome = false := rfl

theorem parseDigitsWith_isSome_cons (p : Char → Bool) (base : Nat) (sign : Int)
    (c : Char) (t : List Char) :
    (parseDigitsWith p base sign (c :: t)).isSome = p c := by
  by_cases h : p c = true <;> simp [parseDigitsWith, h]

theorem jsParseIntCore_isSome (sign : Int) :
    ∀ l, (jsParseIntCore sign l).isSome = startsWithIntAfterSign l := by
  intro l
  match l with
  | [] => rfl
  | [c0] =>
    simp [jsParseIntCore, startsWithIntAfterSign, parseDigitsWith_isSome_cons]
  | c0 :: c1 :: rest =>
    by_cases hx : (c0 = '0' && (c1 = 'x' || c1 = 'X')) = true
    · cases rest with
      | nil =>
        simp [jsParseIntCore, startsWithIntAfterSign, hx, parseDigitsWith_isSome_nil]
      | cons c2 t =>
        simp [jsParseIntCore, startsWithIntAfterSign, hx, parseDigitsWith_isSome_cons]
    · have hx2 : (c0 = '0' && (c1 = 'x' || c1 = 'X')) = false := by
        revert hx
        cases c0 = '0' && (c1 = 'x' || c1 = 'X') <;> simp
      simp [jsParseIntCore, startsWithIntAfterSign, hx2, parseDigitsWith_isSome_cons]

theorem jsParseInt_isSome (s : String) :
    (jsParseInt s).isSome = startsWithParseableInt s :=
  jsParseIntCore_isSome (parseSign (skipWs s.data)).1 (parseSign (skipWs s.data)).2

/-- Claim C6: for a number-typed setting the rendered control is a text
input whose every edit fires exactly one change event carrying the input
parsed as an integer, with no validation: the emitted value is the NaN
sentinel precisely when the input does not start (after optional
whitespace and sign) with a parseable integer, and the sentinel is passed
through to the event unguarded. -/
theorem claim_C6_number_parseInt (entry : ISettingItemEntry)
    (h : entry.type = SettingTypeField.single "number") :
    renderValue entry = RenderedControl.inputControl entry.value
        (fun s => [⟨entry.key, some (parseIntValue s)⟩])
    ∧ (∀ s, parseIntValue s = SettingValue.nan ↔ startsWithParseableInt s = false)
    ∧ (∀ s, [(⟨entry.key, some (parseIntValue s)⟩ : ISettingChangeEvent)].length = 1) := by
  refine ⟨?_, ?_, fun _ => rfl⟩
  · simp [renderValue, h]
  · intro s
    have hiff := jsParseInt_isSome s
    cases hj : jsParseInt s with
    | none =>
      rw [hj] at hiff
      simp [parseIntValue, hj]
      exact hiff.symm
    | some n =>
      rw [hj] at hiff
      simp [parseIntValue, hj, ← hiff]

/-- Claim C6 witness: the sample number entry renders a text input, and the
non-numeric input abc emits the NaN sentinel. -/
theorem claim_C6_witness :
    renderValue sampleNumberEntry = RenderedControl.inputControl sampleNumberEntry.value
        (fun s => [⟨sampleNumberEntry.key, some (parseIntValue s)⟩])
    ∧ parseIntValue "abc" = SettingValue.nan := by
  have h := claim_C6_number_parseInt sampleNumberEntry rfl
  exact ⟨h.1, (h.2.1 "abc").mpr (by decide)⟩

/-! Helper lemmas for the label formatting (claim C10). -/

theorem toNat_ofNat_valid (n : Nat) (h : n.isValidChar) : (Char.ofNat n).toNat = n := by
  simp [Char.ofNat, dif_pos h, Char.ofNatAux, Char.toNat, UInt32.toNat]

theorem isLowerAscii_false_of_upper (b : Char) (h : isUpperAscii b = true) :
    isLowerAscii b = false := by
  simp [isUpperAscii] at h
  simp [isLowerAscii]
  omega

theorem upperAscii_ne_space (b : Char) (h : isLowerAscii b = true) : upperAscii b ≠ ' ' := by
  simp [isLowerAscii] at h
  intro hc
  have hv : (b.toNat - 32).isValidChar := by
    left
    omega
  have htn : (upperAscii b).toNat = b.toNat - 32 := by
    simp only [upperAscii, isLowerAscii]
    rw [if_pos (by simp; omega)]
    exact toNat_ofNat_valid _ hv
  rw [hc] at htn
  have hsp : (' ' : Char).toNat = 32 := by decide
  omega

theorem upperAscii_of_not_lower (b : Char) (h : isLowerAscii b = false) : upperAscii b = b := by
  simp [upperAscii, h]

theorem insertCamelSpaces_cons_not_lower (b : Char) (rest : List Char)
    (hb : isLowerAscii b = false) :
    insertCamelSpaces (b :: rest) = b :: insertCamelSpaces rest := by
  cases rest with
  | nil => rfl
  | cons c t => simp [insertCamelSpaces, hb]

theorem camelSplit_eq_insertCamelSpaces : ∀ l, camelSplit l = insertCamelSpaces l := by
  intro l
  induction l using camelSplit.induct with
  | case1 a b rest hcond ih =>
    have hb : isUpperAscii b = true := by
      revert hcond
      cases isLowerAscii a <;> cases isUpperAscii b <;> simp
    have hbl : isLowerAscii b = false := isLowerAscii_false_of_upper b hb
    simp only [camelSplit, insertCamelSpaces, if_pos hcond]
    rw [insertCamelSpaces_cons_not_lower b rest hbl, ih]
  | case2 a b rest hcond ih =>
    simp only [camelSplit, insertCamelSpaces, if_neg hcond]
    rw [ih]
  | case3 l h =>
    cases l with
    | nil => rfl
    | cons a t =>
      cases t with
      | nil => rfl
      | cons b r => exact absurd rfl (h a b r)

theorem capWithPrev_of_ne_space (prev : Char) (l : List Char) (h : ¬ prev = ' ') :
    capWithPrev prev l = capAfterSpace l := by
  cases l with
  | nil => rfl
  | cons c t => simp [capWithPrev, capAfterSpace, h]

theorem upperAfterSpace_eq_capAfterSpace : ∀ l, upperAfterSpace l = capAfterSpace l := by
  intro l
  induction l using upperAfterSpace.induct with
  | case1 => rfl
  | case2 c => rfl
  | case3 b rest hb ih =>
    have hbs : ¬ b = ' ' := by
      intro he
      rw [he] at hb
      simp [isLowerAscii] at hb
    simp only [upperAfterSpace, if_pos rfl, if_pos hb]
    simp only [capAfterSpace, capWithPrev, if_pos rfl]
    rw [capWithPrev_of_ne_space b rest hbs, ih]
    simp
  | case4 b rest hb ih =>
    simp only [upperAfterSpace, if_pos rfl, if_neg hb]
    simp only [capAfterSpace, capWithPrev, if_pos rfl]
    rw [upperAscii_of_not_lower b (by revert hb; cases isLowerAscii b <;> simp)]
    rw [ih]
    rfl
  | case5 a b rest ha ih =>
    simp only [upperAfterSpace, if_neg ha]
    simp only [capAfterSpace]
    rw [capWithPrev_of_ne_space a (b :: rest) ha, ih]

/-- Claim C10 counterexample: on the key a.b.c (two dots) the code yields
A.B: C while the claim's description yields A.b: C — the claim omits the
non-global regex step (line 651) that uppercases the first lowercase
letter following a remaining dot. -/
theorem claim_C10_counterexample :
    settingKeyToLabel "a.b.c" = "A.B: C"
    ∧ specKeyToLabel "a.b.c" = "A.b: C"
    ∧ settingKeyToLabel "a.b.c" ≠ specKeyToLabel "a.b.c" :=
  ⟨by decide, by decide, by decide⟩

/-- Claim C10 as amended: settingKeyToLabel replaces the last dot with a
colon and a space, then uppercases the first lowercase letter that follows
a remaining dot (affecting only keys with two or more dots), inserts a
space at every lowercase-to-uppercase boundary, uppercases a lowercase
first letter, and uppercases every letter following a space; keys without
a dot receive only the word-splitting and capitalization. -/
theorem claim_C10_label_amended (key : String) :
    settingKeyToLabel key = specKeyToLabelAmended key := by
  unfold settingKeyToLabel specKeyToLabelAmended
  rw [camelSplit_eq_insertCamelSpaces, upperAfterSpace_eq_capAfterSpace]

/-- Claim C10 witness: the amended description at the claim's own
example key. -/
theorem claim_C10_witness :
    settingKeyToLabel "editor.fontSize" = specKeyToLabelAmended "editor.fontSize"
    ∧ settingKeyToLabel "editor.fontSize" = "Editor: Font Size" :=
  ⟨claim_C10_label_amended "editor.fontSize", by decide⟩
